import Mathlib

/-!
Shallow embedding of `src/SyncBus.hpp` (SyncBus protocol: CRC16/Modbus codec,
client and server slot dispatch over a shared byte bus).

Byte buffers are modelled as `List Nat` whose elements are intended to be
bytes (`< 256`); machine-integer truncation is made explicit with `% 256`
and `% 2^32` at the points where the C++ code stores into `uint8_t` /
`uint32_t`.  Frames handed to the send callback are collected in a `sent`
list; slot-change notifications in a `notified` list.
-/

namespace SyncBus

/-- PROTO_BUS_BUFFER_SIZE (default configuration). -/
def BUFFER_SIZE : Nat := 64

/-- Frame layout offsets from the header comment in `SyncBus.hpp`. -/
def FrameServerId : Nat := 0

def FrameSlotId : Nat := 4

def FrameFunction : Nat := 5

def FrameData : Nat := 6

def HeaderSize : Nat := 6

-- ---- CRC16 (Modbus poly 0xA001) --------------------------------------------

/-- One iteration of the inner loop of `genCRC16` / `checkCRC16`:
`crc >>= 1`, and if the former least significant bit was set, `crc ^= 0xA001`. -/
def crcRound (crc : Nat) : Nat :=
  if crc % 2 = 1 then (crc / 2) ^^^ 0xA001 else crc / 2

/-- Iterates `crcRound`. The source runs it 8 times per byte. -/
def crcRounds : Nat → Nat → Nat
  | 0, crc => crc
  | n + 1, crc => crcRounds n (crcRound crc)

/-- Per-byte step of the CRC loop: `crc ^= buff[pos]`, then 8 rounds. -/
def crcByte (crc b : Nat) : Nat := crcRounds 8 (crc ^^^ b)

/-- CRC loop over a byte list starting from an arbitrary register value. -/
def crcFold (crc : Nat) (l : List Nat) : Nat := l.foldl crcByte crc

/-- CRC16 of a byte list, initial register 0xFFFF, as computed by both
`genCRC16` and `checkCRC16`. -/
def crc16 (l : List Nat) : Nat := crcFold 0xFFFF l

/-- Model of `genCRC16 (buff, len)`: appends CRC low byte then high byte to the
`len` bytes of `buff` (the list); the returned buffer has length `len + 2`,
matching the returned size. -/
def genCRC16 (b : List Nat) : List Nat :=
  b ++ [crc16 b % 256, crc16 b / 256 % 256]

/-- Model of `checkCRC16 (buff, len)`: false when `len < 2`; otherwise
recomputes the CRC over the first `len - 2` bytes and compares it with the two
trailing bytes (low then high). -/
def checkCRC16 (b : List Nat) : Bool :=
  if b.length < 2 then false
  else
    (b.getD (b.length - 2) 0 == crc16 (b.take (b.length - 2)) % 256) &&
    (b.getD (b.length - 1) 0 == crc16 (b.take (b.length - 2)) / 256 % 256)

-- ---- Endianness helpers (LE) -----------------------------------------------

/-- Model of `write_le32`: the four bytes written at `dst[0..3]`. -/
def write_le32 (v : Nat) : List Nat :=
  [v % 256, v / 2 ^ 8 % 256, v / 2 ^ 16 % 256, v / 2 ^ 24 % 256]

/-- Model of `read_le32`: `src[0] | src[1] << 8 | src[2] << 16 | src[3] << 24`. -/
def read_le32 (src : List Nat) : Nat :=
  src.getD 0 0 ||| (src.getD 1 0 <<< 8) ||| (src.getD 2 0 <<< 16) ||| (src.getD 3 0 <<< 24)

-- ---- Function codes and results --------------------------------------------

/-- SyncBusFunc codes, kept as their raw byte values. -/
def funcGetReq : Nat := 0

def funcSetReq : Nat := 1

def funcGetResp : Nat := 2

def funcSetResp : Nat := 3

/-- Return codes of the public operations. -/
inductive result where
  | ok
  | errOverflow
  | errCrc
  | errFault
deriving Repr, DecidableEq

-- ---- Slot records ----------------------------------------------------------

/-- Client-side binding record `serverData_t`; `data = none` models a null
application-buffer pointer, `data = some buf` the pointed-to bytes. -/
structure serverData_t where
  data : Option (List Nat)
  serverId : Nat
  slotId : Nat
  size : Nat
deriving Repr, DecidableEq

/-- Server-side slot record `clientSlot_t`. -/
structure clientSlot_t where
  data : Option (List Nat)
  slotId : Nat
  size : Nat
deriving Repr, DecidableEq

/-- Reads `n` bytes starting from a source buffer, as `memcpy (dst, src, n)`
does; bytes past the end of the modelled source list are arbitrary in the C++
program and are modelled as 0. -/
def copyBytes (n : Nat) (src : List Nat) : List Nat :=
  (src ++ List.replicate n 0).take n

/-- Effect of `memcpy (slotBuffer, payload, payload.length)` on the
application buffer bound to a slot (`none` would be a null pointer; the
overwritten buffer always exists afterwards). -/
def overwriteBuf (old : Option (List Nat)) (payload : List Nat) : List Nat :=
  payload ++ (old.getD []).drop payload.length

-- ---- Client state and operations -------------------------------------------

/-- State of a `SyncBusClient<numSlots>` instance: `cap` is the template
parameter, `serveSlots` holds the first `m_numSlots` entries of
`m_serveSlots`, and the two flags record whether the corresponding callback
pointer is non-null. -/
structure SyncBusClient where
  cap : Nat
  serveSlots : List serverData_t
  hasSend : Bool
  hasChanged : Bool
deriving Repr, DecidableEq

/-- Observable outcome of one client operation: result code, successor state,
frames passed to the send callback, slot ids passed to the data-changed
callback, in order. -/
structure ClientOut where
  res : result
  st : SyncBusClient
  sent : List (List Nat)
  notified : List Nat
deriving Repr, DecidableEq

/-- Model of `SyncBusClient::getData`. -/
def SyncBusClient.getData (st : SyncBusClient) (serverId slot : Nat) : ClientOut :=
  if slot ≥ st.serveSlots.length then ⟨.errOverflow, st, [], []⟩
  else
    let s := st.serveSlots.getD slot ⟨none, 0, 0, 0⟩
    if s.data = none then ⟨.errFault, st, [], []⟩
    else if HeaderSize + 2 > BUFFER_SIZE then ⟨.errOverflow, st, [], []⟩
    else
      let frame := genCRC16 (write_le32 serverId ++ [s.slotId % 256, funcGetReq])
      ⟨.ok, st, if st.hasSend then [frame] else [], []⟩

/-- Model of `SyncBusClient::setData`. -/
def SyncBusClient.setData (st : SyncBusClient) (serverId slot : Nat) : ClientOut :=
  if slot ≥ st.serveSlots.length then ⟨.errOverflow, st, [], []⟩
  else
    let s := st.serveSlots.getD slot ⟨none, 0, 0, 0⟩
    match s.data with
    | none => ⟨.errFault, st, [], []⟩
    | some buf =>
      let payload := s.size
      if HeaderSize + payload + 2 > BUFFER_SIZE then ⟨.errOverflow, st, [], []⟩
      else
        let frame := genCRC16 (write_le32 serverId ++ [s.slotId % 256, funcSetReq]
          ++ copyBytes payload buf)
        ⟨.ok, st, if st.hasSend then [frame] else [], []⟩

/-- GetResp dispatch loop of `SyncBusClient::inputData`: scans the bindings in
order for the first `(serverId, slotId)` match, rejects a payload-length
mismatch with `errFault`, otherwise copies the payload into the bound buffer,
notifies, and breaks. Returns (result, updated bindings, notifications). -/
def clientApplyGetResp (serverId slotId : Nat) (payload : List Nat) (hasChanged : Bool) :
    List serverData_t → result × List serverData_t × List Nat
  | [] => (.ok, [], [])
  | s :: rest =>
    if s.serverId = serverId ∧ s.slotId = slotId then
      if payload.length ≠ s.size then (.errFault, s :: rest, [])
      else
        ( .ok,
          { s with data := some (overwriteBuf s.data payload) } :: rest,
          if hasChanged then [slotId] else [] )
    else
      let r := clientApplyGetResp serverId slotId payload hasChanged rest
      (r.1, s :: r.2.1, r.2.2)

/-- Model of `SyncBusClient::inputData`. -/
def SyncBusClient.inputData (st : SyncBusClient) (data : List Nat) : ClientOut :=
  if data.length < HeaderSize + 2 then ⟨.errFault, st, [], []⟩
  else if ¬ checkCRC16 data then ⟨.errCrc, st, [], []⟩
  else
    let serverId := read_le32 data
    let func := data.getD FrameFunction 0
    let slotId := data.getD FrameSlotId 0
    let payloadLen := data.length - HeaderSize - 2
    if func = funcGetResp then
      let payload := (data.drop FrameData).take payloadLen
      let r := clientApplyGetResp serverId slotId payload st.hasChanged st.serveSlots
      ⟨r.1, { st with serveSlots := r.2.1 }, [], r.2.2⟩
    else if func = funcSetResp then
      -- no state kept for a SetResp acknowledgement
      ⟨.ok, st, [], []⟩
    else
      ⟨.ok, st, [], []⟩

/-- Model of `SyncBusClient::addData`; truncates the arguments exactly where
the C++ parameter types (`uint32_t serverId`, `uint8_t slotId`, `uint8_t
size`) do. -/
def SyncBusClient.addData (st : SyncBusClient) (data : Option (List Nat))
    (serverId slotId size : Nat) : result × SyncBusClient :=
  if data = none then (.errFault, st)
  else if st.serveSlots.length ≥ st.cap then (.errOverflow, st)
  else if HeaderSize + size % 256 + 2 > BUFFER_SIZE then (.errOverflow, st)
  else
    ( .ok,
      { st with serveSlots := st.serveSlots
          ++ [⟨data, serverId % 2 ^ 32, slotId % 256, size % 256⟩] } )

-- ---- Server state and operations -------------------------------------------

/-- State of a `SyncBusServer<numSlots>` instance. -/
structure SyncBusServer where
  serverId : Nat
  cap : Nat
  clientSlots : List clientSlot_t
  hasSend : Bool
  hasChanged : Bool
deriving Repr, DecidableEq

/-- Observable outcome of one server operation. -/
structure ServerOut where
  res : result
  st : SyncBusServer
  sent : List (List Nat)
  notified : List Nat
deriving Repr, DecidableEq

/-- Constructor of `SyncBusServer` (both overloads): empty slot table. -/
def SyncBusServer.init (id cap : Nat) (hasSend hasChanged : Bool) : SyncBusServer :=
  ⟨id % 2 ^ 32, cap, [], hasSend, hasChanged⟩

/-- Model of `SyncBusServer::setId`. -/
def SyncBusServer.setId (st : SyncBusServer) (serverId : Nat) : SyncBusServer :=
  { st with serverId := serverId % 2 ^ 32 }

/-- GetReq dispatch loop of `SyncBusServer::inputData`: finds the first slot
with the requested id, checks the response fits the transmit buffer, builds
the GetResp frame and sends it. Returns (result, sent frames). -/
def serverServeGetReq (myId slotId : Nat) (hasSend : Bool) :
    List clientSlot_t → result × List (List Nat)
  | [] => (.ok, [])
  | s :: rest =>
    if s.slotId = slotId then
      if HeaderSize + s.size + 2 > BUFFER_SIZE then (.errOverflow, [])
      else
        let frame := genCRC16 (write_le32 myId ++ [slotId % 256, funcGetResp]
          ++ copyBytes s.size (s.data.getD []))
        (.ok, if hasSend then [frame] else [])
    else serverServeGetReq myId slotId hasSend rest

/-- SetReq dispatch loop of `SyncBusServer::inputData`: finds the first slot
with the requested id, rejects a payload-length mismatch with `errFault`,
otherwise overwrites the bound buffer, notifies, and (SET_ACK enabled by
default) sends a header-only SetResp. Returns (result, updated slots, sent
frames, notifications). -/
def serverApplySetReq (myId slotId : Nat) (payload : List Nat) (hasSend hasChanged : Bool) :
    List clientSlot_t → result × List clientSlot_t × List (List Nat) × List Nat
  | [] => (.ok, [], [], [])
  | s :: rest =>
    if s.slotId = slotId then
      if payload.length ≠ s.size then (.errFault, s :: rest, [], [])
      else
        let s' : clientSlot_t := { s with data := some (overwriteBuf s.data payload) }
        let notes := if hasChanged then [slotId] else []
        if HeaderSize + 2 > BUFFER_SIZE then (.errOverflow, s' :: rest, [], notes)
        else
          let ack := genCRC16 (write_le32 myId ++ [slotId % 256, funcSetResp])
          (.ok, s' :: rest, if hasSend then [ack] else [], notes)
    else
      let r := serverApplySetReq myId slotId payload hasSend hasChanged rest
      (r.1, s :: r.2.1, r.2.2.1, r.2.2.2)

/-- Model of `SyncBusServer::inputData`. -/
def SyncBusServer.inputData (st : SyncBusServer) (data : List Nat) : ServerOut :=
  if data.length < HeaderSize + 2 then ⟨.errFault, st, [], []⟩
  else if ¬ checkCRC16 data then ⟨.errCrc, st, [], []⟩
  else if read_le32 data ≠ st.serverId then
    -- not for this server; ignored silently
    ⟨.ok, st, [], []⟩
  else
    let slotId := data.getD FrameSlotId 0
    let func := data.getD FrameFunction 0
    let payloadLen := data.length - HeaderSize - 2
    if func = funcGetReq then
      let r := serverServeGetReq st.serverId slotId st.hasSend st.clientSlots
      ⟨r.1, st, r.2, []⟩
    else if func = funcSetReq then
      let payload := (data.drop FrameData).take payloadLen
      let r := serverApplySetReq st.serverId slotId payload st.hasSend st.hasChanged
        st.clientSlots
      ⟨r.1, { st with clientSlots := r.2.1 }, r.2.2.1, r.2.2.2⟩
    else
      ⟨.ok, st, [], []⟩

/-- Model of `SyncBusServer::addSlot`. -/
def SyncBusServer.addSlot (st : SyncBusServer) (data : Option (List Nat))
    (slotId size : Nat) : result × SyncBusServer :=
  if data = none then (.errFault, st)
  else if st.clientSlots.length ≥ st.cap then (.errOverflow, st)
  else if HeaderSize + size % 256 + 2 > BUFFER_SIZE then (.errOverflow, st)
  else
    ( .ok,
      { st with clientSlots := st.clientSlots ++ [⟨data, slotId % 256, size % 256⟩] } )

-- ---- Reachable states ------------------------------------------------------

/-- Client states produced by the constructor followed by any sequence of the
public operations. -/
inductive ClientReachable : SyncBusClient → Prop where
  | init (cap : Nat) (hasSend hasChanged : Bool) :
      ClientReachable ⟨cap, [], hasSend, hasChanged⟩
  | getData {st} (serverId slot : Nat) :
      ClientReachable st → ClientReachable (st.getData serverId slot).st
  | setData {st} (serverId slot : Nat) :
      ClientReachable st → ClientReachable (st.setData serverId slot).st
  | inputData {st} (data : List Nat) :
      ClientReachable st → ClientReachable (st.inputData data).st
  | addData {st} (data : Option (List Nat)) (serverId slotId size : Nat) :
      ClientReachable st → ClientReachable (st.addData data serverId slotId size).2

/-- Server states produced by a constructor followed by any sequence of the
public operations. -/
inductive ServerReachable : SyncBusServer → Prop where
  | init (id cap : Nat) (hasSend hasChanged : Bool) :
      ServerReachable (SyncBusServer.init id cap hasSend hasChanged)
  | setId {st} (serverId : Nat) :
      ServerReachable st → ServerReachable (st.setId serverId)
  | inputData {st} (data : List Nat) :
      ServerReachable st → ServerReachable (st.inputData data).st
  | addSlot {st} (data : Option (List Nat)) (slotId size : Nat) :
      ServerReachable st → ServerReachable (st.addSlot data slotId size).2

-- ---- Slot-table invariants -------------------------------------------------

/-- Slot-table invariant of a client: the table never exceeds its capacity and
every registered binding has a non-null buffer and fits a frame. -/
def ClientInv (st : SyncBusClient) : Prop :=
  st.serveSlots.length ≤ st.cap ∧
  ∀ s ∈ st.serveSlots, s.data ≠ none ∧ HeaderSize + s.size + 2 ≤ BUFFER_SIZE

/-- Slot-table invariant of a server. -/
def ServerInv (st : SyncBusServer) : Prop :=
  st.clientSlots.length ≤ st.cap ∧
  ∀ s ∈ st.clientSlots, s.data ≠ none ∧ HeaderSize + s.size + 2 ≤ BUFFER_SIZE

-- ===========================================================================
--                                 THEOREMS
-- ===========================================================================

-- ---- XOR bookkeeping -------------------------------------------------------

theorem xor_xor_cancel_left (s u v : Nat) : (s ^^^ u) ^^^ (s ^^^ v) = u ^^^ v := by
  apply Nat.eq_of_testBit_eq
  intro i
  cases hs : s.testBit i <;> cases hu : u.testBit i <;> cases hv : v.testBit i <;>
    simp [Nat.testBit_xor, hs, hu, hv]

theorem xor_xor_cancel_right (x t : Nat) : (x ^^^ t) ^^^ x = t := by
  apply Nat.eq_of_testBit_eq
  intro i
  cases hx : x.testBit i <;> cases ht : t.testBit i <;>
    simp [Nat.testBit_xor, hx, ht]

theorem xor_rotate (u v w : Nat) : (u ^^^ v) ^^^ w = (u ^^^ w) ^^^ v := by
  rw [Nat.xor_assoc, Nat.xor_comm v w, ← Nat.xor_assoc]

-- ---- CRC register bounds ---------------------------------------------------

theorem crcRound_lt {c : Nat} (h : c < 2 ^ 16) : crcRound c < 2 ^ 16 := by
  unfold crcRound
  split
  · exact Nat.xor_lt_two_pow (by omega) (by norm_num)
  · omega

theorem crcRounds_lt (n : Nat) {c : Nat} (h : c < 2 ^ 16) : crcRounds n c < 2 ^ 16 := by
  induction n generalizing c with
  | zero => exact h
  | succ n ih => exact ih (crcRound_lt h)

theorem crcByte_lt {c b : Nat} (hc : c < 2 ^ 16) (hb : b < 256) : crcByte c b < 2 ^ 16 :=
  crcRounds_lt 8 (Nat.xor_lt_two_pow hc (by omega))

theorem crcFold_lt (l : List Nat) {c : Nat} (hc : c < 2 ^ 16)
    (hl : ∀ x ∈ l, x < 256) : crcFold c l < 2 ^ 16 := by
  induction l generalizing c with
  | nil => exact hc
  | cons x rest ih =>
      exact ih (crcByte_lt hc (hl x (by simp))) fun y hy => hl y (by simp [hy])

theorem crc16_lt {l : List Nat} (hl : ∀ x ∈ l, x < 256) : crc16 l < 2 ^ 16 :=
  crcFold_lt l (by norm_num) hl

-- ---- CRC linearity over XOR ------------------------------------------------

theorem crcRound_xor (a b : Nat) : crcRound (a ^^^ b) = crcRound a ^^^ crcRound b := by
  have hdiv : (a ^^^ b) / 2 = a / 2 ^^^ b / 2 := Nat.xor_div_two
  have hmod : (a ^^^ b) % 2 = a % 2 ^^^ b % 2 := by
    rw [← Nat.and_one_is_mod, ← Nat.and_one_is_mod, ← Nat.and_one_is_mod,
      Nat.and_xor_distrib_right]
  unfold crcRound
  rcases Nat.mod_two_eq_zero_or_one a with ha | ha <;>
    rcases Nat.mod_two_eq_zero_or_one b with hb | hb
  · simp [hmod, ha, hb, hdiv]
  · simp [hmod, ha, hb, hdiv, Nat.xor_assoc]
  · simp only [hmod, ha, hb, hdiv]
    norm_num
    rw [xor_rotate]
  · simp only [hmod, ha, hb, hdiv]
    norm_num
    rw [← xor_xor_cancel_left 0xA001 (a / 2) (b / 2), Nat.xor_comm 0xA001 (a / 2),
      Nat.xor_comm 0xA001 (b / 2)]

theorem crcRounds_xor (n a b : Nat) :
    crcRounds n (a ^^^ b) = crcRounds n a ^^^ crcRounds n b := by
  induction n generalizing a b with
  | zero => rfl
  | succ n ih =>
      show crcRounds n (crcRound (a ^^^ b)) = _
      rw [crcRound_xor]
      exact ih _ _

theorem crcRounds_add (m n c : Nat) :
    crcRounds (m + n) c = crcRounds m (crcRounds n c) := by
  induction n generalizing c with
  | zero => rfl
  | succ n ih => exact ih (crcRound c)

-- ---- CRC never maps a nonzero register difference to zero ------------------

theorem crcRound_eq_zero {c : Nat} (hc : c < 2 ^ 16) (h : crcRound c = 0) : c = 0 := by
  unfold crcRound at h
  split at h
  · have h2 : c / 2 = 0xA001 := Nat.xor_eq_zero.mp h
    omega
  · omega

theorem crcRounds_ne_zero (n : Nat) {c : Nat} (hc : c < 2 ^ 16) (h : c ≠ 0) :
    crcRounds n c ≠ 0 := by
  induction n generalizing c with
  | zero => exact h
  | succ n ih =>
      show crcRounds n (crcRound c) ≠ 0
      exact ih (crcRound_lt hc) fun h0 => h (crcRound_eq_zero hc h0)

theorem crcFold_xor_self (l : List Nat) (a b : Nat) :
    crcFold a l ^^^ crcFold b l = crcRounds (8 * l.length) (a ^^^ b) := by
  induction l generalizing a b with
  | nil => rfl
  | cons x rest ih =>
      show crcFold (crcByte a x) rest ^^^ crcFold (crcByte b x) rest = _
      rw [ih]
      have hstep : crcByte a x ^^^ crcByte b x = crcRounds 8 (a ^^^ b) := by
        unfold crcByte
        rw [← crcRounds_xor]
        congr 1
        rw [Nat.xor_comm a x, Nat.xor_comm b x]
        exact xor_xor_cancel_left x a b
      rw [hstep, ← crcRounds_add]
      congr 1

/-- Flipping bit `j` of any single byte of the message changes its CRC16. -/
theorem crc16_flip_ne (pre suf : List Nat) (x j : Nat) (hj : j < 8) :
    crc16 (pre ++ (x ^^^ 2 ^ j) :: suf) ≠ crc16 (pre ++ x :: suf) := by
  intro h
  have e1 : crc16 (pre ++ (x ^^^ 2 ^ j) :: suf)
      = crcFold (crcByte (crcFold 0xFFFF pre) (x ^^^ 2 ^ j)) suf := by
    simp [crc16, crcFold, List.foldl_append]
  have e2 : crc16 (pre ++ x :: suf)
      = crcFold (crcByte (crcFold 0xFFFF pre) x) suf := by
    simp [crc16, crcFold, List.foldl_append]
  set s := crcFold 0xFFFF pre with hs
  have hxor : crcFold (crcByte s (x ^^^ 2 ^ j)) suf ^^^ crcFold (crcByte s x) suf
      = crcRounds (8 * suf.length + 8) (2 ^ j) := by
    rw [crcFold_xor_self]
    rw [crcRounds_add (8 * suf.length) 8]
    congr 1
    unfold crcByte
    rw [← crcRounds_xor]
    congr 1
    rw [xor_xor_cancel_left s (x ^^^ 2 ^ j) x, xor_xor_cancel_right]
  have hne : crcRounds (8 * suf.length + 8) (2 ^ j) ≠ 0 := by
    apply crcRounds_ne_zero
    · calc (2 : Nat) ^ j < 2 ^ 8 := Nat.pow_lt_pow_right (by norm_num) hj
        _ < 2 ^ 16 := by norm_num
    · exact Nat.pos_iff_ne_zero.mp (Nat.two_pow_pos j)
  rw [← e1, ← e2, h] at hxor
  rw [Nat.xor_self] at hxor
  exact hne hxor.symm

-- ---- List access helpers ---------------------------------------------------

theorem getD_append_of_lt {α : Type} {l₁ l₂ : List α} {i : Nat} (h : i < l₁.length)
    (d : α) : (l₁ ++ l₂).getD i d = l₁.getD i d := by
  simp [List.getD_eq_getElem?_getD, List.getElem?_append_left h]

theorem getD_append_of_ge {α : Type} {l₁ l₂ : List α} {i : Nat} (h : l₁.length ≤ i)
    (d : α) : (l₁ ++ l₂).getD i d = l₂.getD (i - l₁.length) d := by
  simp [List.getD_eq_getElem?_getD, List.getElem?_append_right h]

-- ---- Checksum round-trip ---------------------------------------------------

theorem genCRC16_length (b : List Nat) : (genCRC16 b).length = b.length + 2 := by
  simp [genCRC16]

theorem checkCRC16_genCRC16 (b : List Nat) : checkCRC16 (genCRC16 b) = true := by
  have hlen : (genCRC16 b).length = b.length + 2 := genCRC16_length b
  unfold checkCRC16
  rw [hlen, if_neg (by omega)]
  have h2 : b.length + 2 - 2 = b.length := by omega
  have h1 : b.length + 2 - 1 = b.length + 1 := by omega
  rw [h2, h1]
  unfold genCRC16
  rw [List.take_left' rfl, getD_append_of_ge (Nat.le_refl _),
    getD_append_of_ge (by omega)]
  simp

-- ---- Little-endian identifier round-trip -----------------------------------

theorem lor_shiftLeft_eq_add (k : Nat) :
    ∀ a b : Nat, a < 2 ^ k → a ||| (b <<< k) = b * 2 ^ k + a := by
  induction k with
  | zero =>
      intro a b ha
      have h0 : a = 0 := by omega
      subst h0
      simp [Nat.shiftLeft_eq]
  | succ k ih =>
      intro a b ha
      have hbe : (b <<< (k + 1)) % 2 = 0 := by
        rw [Nat.shiftLeft_eq, Nat.pow_succ, ← Nat.mul_assoc]
        exact Nat.mul_mod_left _ 2
      have hmod : (a ||| b <<< (k + 1)) % 2 = a % 2 := by
        rcases Nat.mod_two_eq_zero_or_one a with h0 | h1
        · rcases Nat.mod_two_eq_zero_or_one (a ||| b <<< (k + 1)) with hm | hm
          · omega
          · have := Nat.or_mod_two_eq_one.mp hm
            omega
        · rw [h1]
          exact Nat.or_mod_two_eq_one.mpr (Or.inl h1)
      have hdiv : (a ||| b <<< (k + 1)) / 2 = (a / 2) ||| (b <<< k) := by
        rw [Nat.or_div_two]
        congr 1
        rw [Nat.shiftLeft_eq, Nat.shiftLeft_eq, Nat.pow_succ, ← Nat.mul_assoc]
        exact Nat.mul_div_cancel _ (by norm_num)
      have hp : (2 : Nat) ^ (k + 1) = 2 ^ k * 2 := Nat.pow_succ 2 k
      have hih := ih (a / 2) b (by omega)
      have hsplit := Nat.div_add_mod (a ||| b <<< (k + 1)) 2
      rw [hdiv, hih, hmod] at hsplit
      rw [← hsplit, hp, ← Nat.mul_assoc]
      omega

theorem read_le32_bytes {b0 b1 b2 b3 : Nat} (rest : List Nat)
    (h0 : b0 < 256) (h1 : b1 < 256) (h2 : b2 < 256) (_h3 : b3 < 256) :
    read_le32 (b0 :: b1 :: b2 :: b3 :: rest)
      = b0 + b1 * 256 + b2 * 65536 + b3 * 16777216 := by
  unfold read_le32
  simp only [List.getD_cons_zero, List.getD_cons_succ]
  rw [lor_shiftLeft_eq_add 8 b0 b1 (by omega)]
  rw [lor_shiftLeft_eq_add 16 _ b2 (by omega)]
  rw [lor_shiftLeft_eq_add 24 _ b3 (by omega)]
  norm_num
  omega

theorem read_le32_write_le32 (v : Nat) (rest : List Nat) :
    read_le32 (write_le32 v ++ rest) = v % 2 ^ 32 := by
  unfold write_le32
  simp only [List.cons_append, List.nil_append]
  rw [read_le32_bytes rest (by omega) (by omega) (by omega) (by omega)]
  have e8 : (2 : Nat) ^ 8 = 256 := by norm_num
  have e16 : (2 : Nat) ^ 16 = 65536 := by norm_num
  have e24 : (2 : Nat) ^ 24 = 16777216 := by norm_num
  have e32 : (2 : Nat) ^ 32 = 4294967296 := by norm_num
  rw [e8, e16, e24, e32]
  omega

theorem checkCRC16_append_two (body : List Nat) (t0 t1 : Nat) :
    checkCRC16 (body ++ [t0, t1])
      = ((t0 == crc16 body % 256) && (t1 == crc16 body / 256 % 256)) := by
  unfold checkCRC16
  have hlen : (body ++ [t0, t1]).length = body.length + 2 := by simp
  rw [hlen, if_neg (by omega)]
  have h2 : body.length + 2 - 2 = body.length := by omega
  have h1 : body.length + 2 - 1 = body.length + 1 := by omega
  rw [h2, h1, List.take_left' rfl, getD_append_of_ge (Nat.le_refl _),
    getD_append_of_ge (by omega)]
  simp

theorem checkCRC16_short {l : List Nat} (h : l.length < 2) : checkCRC16 l = false := by
  unfold checkCRC16
  rw [if_pos h]

/-- Changing the message part of a framed buffer breaks checksum verification:
if the body is replaced by one of equal length with a different CRC,
`checkCRC16` rejects. -/
theorem checkCRC16_body_change {body body' : List Nat}
    (hlo : crc16 body < 2 ^ 16) (hlo' : crc16 body' < 2 ^ 16)
    (hne : crc16 body' ≠ crc16 body) :
    checkCRC16 (body' ++ [crc16 body % 256, crc16 body / 256 % 256]) = false := by
  rw [checkCRC16_append_two]
  by_contra hcontra
  rw [Bool.not_eq_false, Bool.and_eq_true, beq_iff_eq, beq_iff_eq] at hcontra
  omega

/-- C1: for every byte sequence `b` of length `L` with `6 ≤ L ≤ capacity − 2`,
verifying the checksum after appending it succeeds
(`checkCRC16 (genCRC16 b) = true`); flipping any single bit in the first `L`
bytes or in the two trailer bytes makes `checkCRC16` return `false`; and
`checkCRC16` returns `false` whenever `len < 2`. -/
theorem C1_checksum_roundtrip_and_bit_flip (b : List Nat)
    (hbytes : ∀ x ∈ b, x < 256) (_hlo : 6 ≤ b.length)
    (_hhi : b.length ≤ BUFFER_SIZE - 2) :
    checkCRC16 (genCRC16 b) = true ∧
    (∀ i j, i < b.length + 2 → j < 8 →
      checkCRC16 ((genCRC16 b).set i ((genCRC16 b).getD i 0 ^^^ 2 ^ j)) = false) ∧
    (∀ l : List Nat, l.length < 2 → checkCRC16 l = false) := by
  refine ⟨checkCRC16_genCRC16 b, ?_, fun l hl => checkCRC16_short hl⟩
  intro i j hi hj
  have hgen : genCRC16 b = b ++ [crc16 b % 256, crc16 b / 256 % 256] := rfl
  have hpj : (2 : Nat) ^ j < 256 := by
    calc (2 : Nat) ^ j < 2 ^ 8 := Nat.pow_lt_pow_right (by norm_num) hj
      _ = 256 := by norm_num
  rw [hgen]
  rcases Nat.lt_or_ge i b.length with hiL | hiL
  · -- the flipped bit is in the message body
    rw [getD_append_of_lt hiL, List.set_append_left _ _ hiL]
    have hg : b.getD i 0 = b[i] := by
      simp [List.getD_eq_getElem?_getD, List.getElem?_eq_getElem hiL]
    have hxmem : b.getD i 0 ∈ b := by
      rw [hg]
      exact List.getElem_mem hiL
    have hdecomp : b.set i (b.getD i 0 ^^^ 2 ^ j)
        = b.take i ++ (b.getD i 0 ^^^ 2 ^ j) :: b.drop (i + 1) :=
      List.set_eq_take_cons_drop _ hiL
    have hb : b.take i ++ b.getD i 0 :: b.drop (i + 1) = b := by
      rw [hg, List.getElem_cons_drop b i hiL, List.take_append_drop]
    have hne : crc16 (b.set i (b.getD i 0 ^^^ 2 ^ j)) ≠ crc16 b := by
      have h1 := crc16_flip_ne (b.take i) (b.drop (i + 1)) (b.getD i 0) j hj
      rw [hb, ← hdecomp] at h1
      exact h1
    have hbb : crc16 b < 2 ^ 16 := crc16_lt hbytes
    have hbb' : crc16 (b.set i (b.getD i 0 ^^^ 2 ^ j)) < 2 ^ 16 := by
      apply crc16_lt
      intro y hy
      rcases List.mem_or_eq_of_mem_set hy with hmem | heq
      · exact hbytes y hmem
      · subst heq
        have e8 : (2 : Nat) ^ 8 = 256 := by norm_num
        have h1 : b.getD i 0 < 2 ^ 8 := by rw [e8]; exact hbytes _ hxmem
        have h2 : (2 : Nat) ^ j < 2 ^ 8 := Nat.pow_lt_pow_right (by norm_num) hj
        have h3 := Nat.xor_lt_two_pow h1 h2
        omega
    exact checkCRC16_body_change hbb hbb' hne
  · -- the flipped bit is in the two trailer bytes
    rw [getD_append_of_ge hiL, List.set_append_right _ _ hiL]
    rcases (show i - b.length = 0 ∨ i - b.length = 1 by omega) with h0 | h0 <;> rw [h0]
    · -- low checksum byte flipped
      simp only [List.getD_cons_zero, List.set_cons_zero]
      rw [checkCRC16_append_two]
      have hne : crc16 b % 256 ^^^ 2 ^ j ≠ crc16 b % 256 := by
        intro hcontra
        have hcc := xor_xor_cancel_right (crc16 b % 256) (2 ^ j)
        rw [hcontra, Nat.xor_self] at hcc
        have := Nat.two_pow_pos j
        omega
      simp [hne]
    · -- high checksum byte flipped
      simp only [List.getD_cons_succ, List.getD_cons_zero, List.set_cons_succ,
        List.set_cons_zero]
      rw [checkCRC16_append_two]
      have hne : crc16 b / 256 % 256 ^^^ 2 ^ j ≠ crc16 b / 256 % 256 := by
        intro hcontra
        have hcc := xor_xor_cancel_right (crc16 b / 256 % 256) (2 ^ j)
        rw [hcontra, Nat.xor_self] at hcc
        have := Nat.two_pow_pos j
        omega
      simp [hne]

/-- Witness for C1 at the concrete message `[1, 2, 3, 4, 5, 6]`, flipping bit
0 of byte 0 and, separately, observing that `checkCRC16` rejects a 1-byte
buffer. -/
theorem C1_witness :
    checkCRC16 (genCRC16 [1, 2, 3, 4, 5, 6]) = true ∧
    checkCRC16 ((genCRC16 [1, 2, 3, 4, 5, 6]).set 0
      ((genCRC16 [1, 2, 3, 4, 5, 6]).getD 0 0 ^^^ 2 ^ 0)) = false ∧
    checkCRC16 [7] = false := by
  have h := C1_checksum_roundtrip_and_bit_flip [1, 2, 3, 4, 5, 6]
    (by decide) (by decide) (by decide)
  exact ⟨h.1, h.2.1 0 0 (by decide) (by decide), h.2.2 [7] (by decide)⟩

/-- C6: for every input frame, both the client's and the server's `inputData`
return `errFault` when the frame is shorter than header + checksum (8 bytes),
and otherwise return `errCrc` when checksum verification fails; in both error
cases the state is unchanged, nothing is sent and nothing is notified. -/
theorem C6_incoming_error_ladder (cst : SyncBusClient) (sst : SyncBusServer)
    (data : List Nat) :
    (data.length < HeaderSize + 2 →
      cst.inputData data = ⟨.errFault, cst, [], []⟩ ∧
      sst.inputData data = ⟨.errFault, sst, [], []⟩) ∧
    (¬ data.length < HeaderSize + 2 → checkCRC16 data = false →
      cst.inputData data = ⟨.errCrc, cst, [], []⟩ ∧
      sst.inputData data = ⟨.errCrc, sst, [], []⟩) := by
  constructor
  · intro h
    constructor <;> simp [SyncBusClient.inputData, SyncBusServer.inputData, h]
  · intro h hc
    constructor <;> simp [SyncBusClient.inputData, SyncBusServer.inputData, h, hc]

set_option maxRecDepth 8000 in
/-- Witness for C6 on a 3-byte frame (too short) and on an 8-byte frame with a
corrupted checksum. -/
theorem C6_witness :
    (SyncBusClient.mk 1 [] true true).inputData [1, 2, 3]
      = ⟨.errFault, ⟨1, [], true, true⟩, [], []⟩ ∧
    (SyncBusServer.mk 7 1 [] true true).inputData [1, 2, 3, 4, 5, 6, 7, 8]
      = ⟨.errCrc, ⟨7, 1, [], true, true⟩, [], []⟩ := by
  refine ⟨((C6_incoming_error_ladder ⟨1, [], true, true⟩ ⟨7, 1, [], true, true⟩
      [1, 2, 3]).1 (by decide)).1, ?_⟩
  exact ((C6_incoming_error_ladder ⟨1, [], true, true⟩ ⟨7, 1, [], true, true⟩
    [1, 2, 3, 4, 5, 6, 7, 8]).2 (by decide) (by decide)).2

/-- C4: a well-formed frame (length at least 8, valid checksum) whose embedded
little-endian identifier differs from the server's identifier is accepted as
`ok` with no send, no notification and no state change. -/
theorem C4_foreign_identifier_filtering (sst : SyncBusServer) (data : List Nat)
    (hlen : 8 ≤ data.length) (hcrc : checkCRC16 data = true)
    (hid : read_le32 data ≠ sst.serverId) :
    sst.inputData data = ⟨.ok, sst, [], []⟩ := by
  have h : ¬ data.length < HeaderSize + 2 := by
    simp only [HeaderSize]
    omega
  simp [SyncBusServer.inputData, h, hcrc, hid]

set_option maxRecDepth 8000 in
/-- Witness for C4: a checksummed GetReq frame for identifier 1 handed to a
server with identifier 5. -/
theorem C4_witness :
    (SyncBusServer.mk 5 1 [⟨some [0], 0, 1⟩] true true).inputData
      (genCRC16 [1, 0, 0, 0, 0, 0])
      = ⟨.ok, ⟨5, 1, [⟨some [0], 0, 1⟩], true, true⟩, [], []⟩ :=
  C4_foreign_identifier_filtering _ _ (by decide) (by decide) (by decide)

/-- C5: for the client's `addData` and the server's `addSlot`: with a non-null
buffer and a non-full table, a slot with `header + size + 2` exactly equal to
the capacity registers as `ok` while one byte more returns `errOverflow` and
leaves the state unchanged; a null buffer returns `errFault`; a full table
returns `errOverflow`; in every failure case the state is unchanged. -/
theorem C5_registration_overflow_boundary (cst : SyncBusClient)
    (sst : SyncBusServer) (buf : List Nat) (serverId slotId size : Nat)
    (hsz : size < 256) :
    (HeaderSize + size + 2 = BUFFER_SIZE → cst.serveSlots.length < cst.cap →
      (cst.addData (some buf) serverId slotId size).1 = .ok) ∧
    (HeaderSize + size + 2 = BUFFER_SIZE → sst.clientSlots.length < sst.cap →
      (sst.addSlot (some buf) slotId size).1 = .ok) ∧
    (HeaderSize + size + 2 = BUFFER_SIZE + 1 →
      cst.addData (some buf) serverId slotId size = (.errOverflow, cst)) ∧
    (HeaderSize + size + 2 = BUFFER_SIZE + 1 →
      sst.addSlot (some buf) slotId size = (.errOverflow, sst)) ∧
    cst.addData none serverId slotId size = (.errFault, cst) ∧
    sst.addSlot none slotId size = (.errFault, sst) ∧
    (cst.serveSlots.length ≥ cst.cap →
      cst.addData (some buf) serverId slotId size = (.errOverflow, cst)) ∧
    (sst.clientSlots.length ≥ sst.cap →
      sst.addSlot (some buf) slotId size = (.errOverflow, sst)) := by
  refine ⟨?_, ?_, ?_, ?_, ?_, ?_, ?_, ?_⟩
  · intro h1 h2
    unfold SyncBusClient.addData
    rw [if_neg (by simp), if_neg (by omega), if_neg (by omega)]
  · intro h1 h2
    unfold SyncBusServer.addSlot
    rw [if_neg (by simp), if_neg (by omega), if_neg (by omega)]
  · intro h1
    unfold SyncBusClient.addData
    rw [if_neg (by simp)]
    rcases Nat.lt_or_ge cst.serveSlots.length cst.cap with hc | hc
    · rw [if_neg (by omega), if_pos (by omega)]
    · rw [if_pos (by omega)]
  · intro h1
    unfold SyncBusServer.addSlot
    rw [if_neg (by simp)]
    rcases Nat.lt_or_ge sst.clientSlots.length sst.cap with hc | hc
    · rw [if_neg (by omega), if_pos (by omega)]
    · rw [if_pos (by omega)]
  · unfold SyncBusClient.addData
    rw [if_pos rfl]
  · unfold SyncBusServer.addSlot
    rw [if_pos rfl]
  · intro h1
    unfold SyncBusClient.addData
    rw [if_neg (by simp), if_pos (by omega)]
  · intro h1
    unfold SyncBusServer.addSlot
    rw [if_neg (by simp), if_pos (by omega)]

/-- Witness for C5 at size 56 (`6 + 56 + 2 = 64`, exact fit) and size 57 (one
byte over) on fresh one-slot instances. -/
theorem C5_witness :
    ((SyncBusClient.mk 1 [] true true).addData (some [0]) 9 3 56).1 = .ok ∧
    (SyncBusServer.mk 9 1 [] true true).addSlot (some [0]) 3 57
      = (.errOverflow, ⟨9, 1, [], true, true⟩) := by
  have h1 := C5_registration_overflow_boundary ⟨1, [], true, true⟩
    ⟨9, 1, [], true, true⟩ [0] 9 3 56 (by decide)
  have h2 := C5_registration_overflow_boundary ⟨1, [], true, true⟩
    ⟨9, 1, [], true, true⟩ [0] 9 3 57 (by decide)
  exact ⟨h1.1 (by decide) (by decide), h2.2.2.2.1 (by decide)⟩

-- ---- Dispatch loop characterizations ---------------------------------------

theorem clientApplyGetResp_nomatch {serverId slotId : Nat} {payload : List Nat}
    {hc : Bool} {slots : List serverData_t}
    (h : ∀ s ∈ slots, ¬ (s.serverId = serverId ∧ s.slotId = slotId)) :
    clientApplyGetResp serverId slotId payload hc slots = (.ok, slots, []) := by
  induction slots with
  | nil => rfl
  | cons t rest ih =>
      have ht := h t (List.mem_cons_self t rest)
      have hrest := fun s hs => h s (List.mem_cons_of_mem t hs)
      simp [clientApplyGetResp, ht, ih hrest]

theorem clientApplyGetResp_first_mismatch {serverId slotId : Nat}
    {payload : List Nat} {hc : Bool} {slots : List serverData_t} {s : serverData_t}
    (hfind : slots.find? (fun t => t.serverId == serverId && t.slotId == slotId)
      = some s)
    (hsz : payload.length ≠ s.size) :
    clientApplyGetResp serverId slotId payload hc slots = (.errFault, slots, []) := by
  induction slots with
  | nil => simp at hfind
  | cons t rest ih =>
      rw [List.find?_cons] at hfind
      rcases hp : (t.serverId == serverId && t.slotId == slotId) with _ | _
      · rw [hp] at hfind
        have hnp : ¬ (t.serverId = serverId ∧ t.slotId = slotId) := by
          intro hand
          simp [hand.1, hand.2] at hp
        simp [clientApplyGetResp, hnp, ih hfind]
      · rw [hp] at hfind
        have hts : t = s := by
          simpa using hfind
        subst hts
        have hand : t.serverId = serverId ∧ t.slotId = slotId := by
          constructor <;> [exact beq_iff_eq.mp (Bool.and_eq_true .. ▸ hp).1;
            exact beq_iff_eq.mp (Bool.and_eq_true .. ▸ hp).2]
        simp [clientApplyGetResp, hand, hsz]

theorem serverServeGetReq_nomatch {myId slotId : Nat} {hs : Bool}
    {slots : List clientSlot_t} (h : ∀ s ∈ slots, s.slotId ≠ slotId) :
    serverServeGetReq myId slotId hs slots = (.ok, []) := by
  induction slots with
  | nil => rfl
  | cons t rest ih =>
      have ht := h t (List.mem_cons_self t rest)
      have hrest := fun s hsm => h s (List.mem_cons_of_mem t hsm)
      simp [serverServeGetReq, ht, ih hrest]

theorem serverApplySetReq_nomatch {myId slotId : Nat} {payload : List Nat}
    {hs hc : Bool} {slots : List clientSlot_t}
    (h : ∀ s ∈ slots, s.slotId ≠ slotId) :
    serverApplySetReq myId slotId payload hs hc slots = (.ok, slots, [], []) := by
  induction slots with
  | nil => rfl
  | cons t rest ih =>
      have ht := h t (List.mem_cons_self t rest)
      have hrest := fun s hsm => h s (List.mem_cons_of_mem t hsm)
      simp [serverApplySetReq, ht, ih hrest]

theorem serverApplySetReq_first_mismatch {myId slotId : Nat} {payload : List Nat}
    {hs hc : Bool} {slots : List clientSlot_t} {s : clientSlot_t}
    (hfind : slots.find? (fun t => t.slotId == slotId) = some s)
    (hsz : payload.length ≠ s.size) :
    serverApplySetReq myId slotId payload hs hc slots
      = (.errFault, slots, [], []) := by
  induction slots with
  | nil => simp at hfind
  | cons t rest ih =>
      rw [List.find?_cons] at hfind
      rcases hp : (t.slotId == slotId) with _ | _
      · rw [hp] at hfind
        have hnp : ¬ t.slotId = slotId := by
          intro hand
          simp [hand] at hp
        simp [serverApplySetReq, hnp, ih hfind]
      · rw [hp] at hfind
        have hts : t = s := by
          simpa using hfind
        subst hts
        have hand : t.slotId = slotId := beq_iff_eq.mp hp
        simp [serverApplySetReq, hand, hsz]

theorem copyBytes_length (n : Nat) (src : List Nat) : (copyBytes n src).length = n := by
  simp [copyBytes]

theorem builtFrame_getD_func (v sl fn : Nat) (payload : List Nat) :
    (genCRC16 (write_le32 v ++ sl :: fn :: payload)).getD FrameFunction 0 = fn := by
  simp [genCRC16, write_le32, FrameFunction]

theorem builtHeader_getD_func (v sl fn : Nat) :
    (genCRC16 (write_le32 v ++ [sl, fn])).getD FrameFunction 0 = fn := by
  simp [genCRC16, write_le32, FrameFunction]

/-- Frames handed to the send callback by the server's GetReq branch: there is
a first matching slot, the response is the GetResp frame built from it, and it
passed the capacity test. -/
theorem serverServeGetReq_sent {myId slotId : Nat} {hs : Bool}
    {slots : List clientSlot_t} {f : List Nat}
    (hf : f ∈ (serverServeGetReq myId slotId hs slots).2) :
    ∃ s, slots.find? (fun t => t.slotId == slotId) = some s ∧
      f = genCRC16 (write_le32 myId ++ slotId % 256 :: funcGetResp
        :: copyBytes s.size (s.data.getD [])) ∧
      HeaderSize + s.size + 2 ≤ BUFFER_SIZE := by
  induction slots with
  | nil => simp [serverServeGetReq] at hf
  | cons t rest ih =>
      by_cases ht : t.slotId = slotId
      · by_cases hov : HeaderSize + t.size + 2 > BUFFER_SIZE
        · simp [serverServeGetReq, ht, hov] at hf
        · by_cases hsend : hs
          · simp [serverServeGetReq, ht, hov, hsend] at hf
            exact ⟨t, List.find?_cons_of_pos _ (by simp [ht]), hf, by omega⟩
          · simp [serverServeGetReq, ht, hov, hsend] at hf
      · simp only [serverServeGetReq, if_neg ht] at hf
        obtain ⟨s, hfind, heq, hle⟩ := ih hf
        exact ⟨s, by rw [List.find?_cons_of_neg _ (by simp [ht])]; exact hfind,
          heq, hle⟩

/-- Frames handed to the send callback by the server's SetReq branch are
header-only SetResp acknowledgements. -/
theorem serverApplySetReq_sent {myId slotId : Nat} {payload : List Nat}
    {hs hc : Bool} {slots : List clientSlot_t} {f : List Nat}
    (hf : f ∈ (serverApplySetReq myId slotId payload hs hc slots).2.2.1) :
    f = genCRC16 (write_le32 myId ++ [slotId % 256, funcSetResp]) := by
  induction slots with
  | nil => simp [serverApplySetReq] at hf
  | cons t rest ih =>
      by_cases ht : t.slotId = slotId
      · by_cases hsz : payload.length ≠ t.size
        · simp [serverApplySetReq, ht, hsz] at hf
        · by_cases hsend : hs
          · simp only [serverApplySetReq, if_pos ht, if_neg hsz,
              if_neg (by decide : ¬ HeaderSize + 2 > BUFFER_SIZE), hsend,
              if_pos] at hf
            simpa using hf
          · simp [serverApplySetReq, ht, hsz, hsend,
              (by decide : ¬ HeaderSize + 2 > BUFFER_SIZE)] at hf
      · simp only [serverApplySetReq, if_neg ht] at hf
        exact ih hf

theorem builtFrame_length (v sl fn : Nat) (payload : List Nat) :
    (genCRC16 (write_le32 v ++ sl :: fn :: payload)).length
      = HeaderSize + payload.length + 2 := by
  simp [genCRC16, write_le32, HeaderSize]
  omega

/-- C7: every frame passed to a send callback is well-formed: its length lies
between header + checksum (8) and the buffer capacity (64), it passes
`checkCRC16`, GetReq and SetResp frames are header-only, and SetReq and
GetResp frames carry exactly the matched slot's registered size. -/
theorem C7_sent_frames_wellformed (cst : SyncBusClient) (sst : SyncBusServer)
    (serverId slot : Nat) (data : List Nat) :
    (∀ f ∈ (cst.getData serverId slot).sent,
      f.length = HeaderSize + 2 ∧ f.length ≤ BUFFER_SIZE ∧
      checkCRC16 f = true ∧ f.getD FrameFunction 0 = funcGetReq) ∧
    (∀ f ∈ (cst.setData serverId slot).sent,
      f.length = HeaderSize + (cst.serveSlots.getD slot ⟨none, 0, 0, 0⟩).size + 2 ∧
      f.length ≤ BUFFER_SIZE ∧ checkCRC16 f = true ∧
      f.getD FrameFunction 0 = funcSetReq) ∧
    (∀ f ∈ (sst.inputData data).sent,
      HeaderSize + 2 ≤ f.length ∧ f.length ≤ BUFFER_SIZE ∧ checkCRC16 f = true ∧
      ((∃ s, sst.clientSlots.find?
            (fun t => t.slotId == data.getD FrameSlotId 0) = some s ∧
          f.getD FrameFunction 0 = funcGetResp ∧
          f.length = HeaderSize + s.size + 2) ∨
        (f.getD FrameFunction 0 = funcSetResp ∧ f.length = HeaderSize + 2))) := by
  refine ⟨?_, ?_, ?_⟩
  · -- client getData emits a checksummed header-only GetReq
    intro f hf
    by_cases h1 : slot ≥ cst.serveSlots.length
    · simp [SyncBusClient.getData, h1] at hf
    · by_cases h2 :
        (cst.serveSlots[slot]?.getD ⟨none, 0, 0, 0⟩).data = none
      · simp [SyncBusClient.getData, h1, h2] at hf
      · by_cases h3 : cst.hasSend
        · simp [SyncBusClient.getData, h1, h2, h3, HeaderSize, BUFFER_SIZE] at hf
          subst hf
          refine ⟨?_, ?_, checkCRC16_genCRC16 _, ?_⟩
          · simp [genCRC16, write_le32, HeaderSize]
          · simp [genCRC16, write_le32, BUFFER_SIZE]
          · exact builtHeader_getD_func _ _ _
        · simp [SyncBusClient.getData, h1, h2, h3, HeaderSize, BUFFER_SIZE] at hf
  · -- client setData emits a checksummed SetReq of the slot's size
    intro f hf
    simp only [List.getD_eq_getElem?_getD]
    by_cases h1 : slot ≥ cst.serveSlots.length
    · simp [SyncBusClient.setData, h1] at hf
    · rcases hd : (cst.serveSlots[slot]?.getD ⟨none, 0, 0, 0⟩).data with _ | buf
      · simp [SyncBusClient.setData, h1, hd] at hf
      · by_cases h3 :
          HeaderSize + (cst.serveSlots[slot]?.getD ⟨none, 0, 0, 0⟩).size + 2
            > BUFFER_SIZE
        · simp [SyncBusClient.setData, h1, hd, h3] at hf
        · by_cases h4 : cst.hasSend
          · simp [SyncBusClient.setData, h1, hd, h3, h4] at hf
            subst hf
            have hflen := builtFrame_length serverId
              ((cst.serveSlots[slot]?.getD ⟨none, 0, 0, 0⟩).slotId % 256)
              funcSetReq
              (copyBytes ((cst.serveSlots[slot]?.getD ⟨none, 0, 0, 0⟩).size) buf)
            rw [copyBytes_length] at hflen
            refine ⟨hflen, by omega, checkCRC16_genCRC16 _, ?_⟩
            simp [genCRC16, write_le32, FrameFunction]
          · simp [SyncBusClient.setData, h1, hd, h3, h4] at hf
  · -- server responses: GetResp of the matched slot's size or header-only ack
    intro f hf
    by_cases h1 : data.length < HeaderSize + 2
    · simp [SyncBusServer.inputData, h1] at hf
    · rcases hb : checkCRC16 data with _ | _
      · simp [SyncBusServer.inputData, h1, hb] at hf
      · by_cases h3 : read_le32 data = sst.serverId
        · by_cases h4 : data.getD FrameFunction 0 = funcGetReq
          · simp only [List.getD_eq_getElem?_getD] at h4
            simp [SyncBusServer.inputData, h1, hb, h3, h4] at hf
            obtain ⟨s, hfind, heq, hle⟩ := serverServeGetReq_sent hf
            have hflen := builtFrame_length sst.serverId
              ((data.getD FrameSlotId 0) % 256) funcGetResp
              (copyBytes s.size (s.data.getD []))
            rw [copyBytes_length] at hflen
            simp only [List.getD_eq_getElem?_getD] at hflen
            rw [← heq] at hflen
            refine ⟨by simp only [HeaderSize] at hflen ⊢; omega, by omega,
              by rw [heq]; exact checkCRC16_genCRC16 _, Or.inl ⟨s, ?_, ?_, hflen⟩⟩
            · simp only [List.getD_eq_getElem?_getD]
              exact hfind
            · subst heq
              simp [genCRC16, write_le32, FrameFunction, funcGetResp]
          · by_cases h5 : data.getD FrameFunction 0 = funcSetReq
            · simp only [List.getD_eq_getElem?_getD, funcGetReq, funcSetReq]
                at h4 h5
              simp [SyncBusServer.inputData, h1, hb, h3, h4, h5, funcGetReq,
                funcSetReq] at hf
              have heq := serverApplySetReq_sent hf
              subst heq
              refine ⟨?_, ?_, checkCRC16_genCRC16 _, Or.inr ⟨?_, ?_⟩⟩
              · simp [genCRC16, write_le32, HeaderSize]
              · simp [genCRC16, write_le32, BUFFER_SIZE]
              · exact builtHeader_getD_func _ _ _
              · simp [genCRC16, write_le32, HeaderSize]
            · simp only [List.getD_eq_getElem?_getD, funcGetReq, funcSetReq]
                at h4 h5
              simp [SyncBusServer.inputData, h1, hb, h3, h4, h5, funcGetReq,
                funcSetReq] at hf
        · simp [SyncBusServer.inputData, h1, hb, h3] at hf

set_option maxRecDepth 16000 in
/-- Witness for C7: the GetResp frame a one-slot server sends in reply to a
concrete GetReq is checksummed and fits the transmit buffer. -/
theorem C7_witness :
    checkCRC16 (genCRC16 [1, 0, 0, 0, 2, 2, 5, 6]) = true ∧
    (genCRC16 [1, 0, 0, 0, 2, 2, 5, 6]).length ≤ BUFFER_SIZE := by
  have h := (C7_sent_frames_wellformed ⟨1, [], true, true⟩
    ⟨1, 1, [⟨some [5, 6], 2, 2⟩], true, true⟩ 0 0
    (genCRC16 [1, 0, 0, 0, 2, 0])).2.2
    (genCRC16 [1, 0, 0, 0, 2, 2, 5, 6]) (by decide)
  exact ⟨h.2.2.1, h.2.1⟩

theorem copyBytes_self {n : Nat} {src : List Nat} (h : src.length = n) :
    copyBytes n src = src := by
  unfold copyBytes
  exact List.take_left' h

theorem read_le32_genCRC16_write (v : Nat) (r : List Nat) :
    read_le32 (genCRC16 (write_le32 v ++ r)) = v % 2 ^ 32 := by
  unfold genCRC16
  rw [List.append_assoc]
  exact read_le32_write_le32 v _

/-- Behaviour of `getData` on a registered, non-null binding with the send
callback wired: it emits exactly one header-only GetReq frame. -/
theorem getData_sends (cst : SyncBusClient) (serverId idx : Nat)
    (hidx : idx < cst.serveSlots.length)
    (hdata : (cst.serveSlots.getD idx ⟨none, 0, 0, 0⟩).data ≠ none)
    (hsend : cst.hasSend = true) :
    cst.getData serverId idx = ⟨.ok, cst,
      [genCRC16 (write_le32 serverId
        ++ [(cst.serveSlots.getD idx ⟨none, 0, 0, 0⟩).slotId % 256, funcGetReq])],
      []⟩ := by
  have hge : ¬ idx ≥ cst.serveSlots.length := by omega
  simp only [List.getD_eq_getElem?_getD] at hdata ⊢
  simp [SyncBusClient.getData, hge, hdata, hsend, HeaderSize, BUFFER_SIZE]

/-- Behaviour of a one-slot server on a well-formed GetReq frame addressed to
it: it answers with exactly one GetResp frame carrying the slot's bytes. -/
theorem server_getreq_responds (S c2 K N : Nat) (Y f : List Nat)
    (hcrc : checkCRC16 f = true) (hlen : 8 ≤ f.length)
    (hread : read_le32 f = S) (hslot : f.getD FrameSlotId 0 = K)
    (hfn : f.getD FrameFunction 0 = funcGetReq)
    (hcap : HeaderSize + N + 2 ≤ BUFFER_SIZE) :
    SyncBusServer.inputData ⟨S, c2, [⟨some Y, K, N⟩], true, true⟩ f
      = ⟨.ok, ⟨S, c2, [⟨some Y, K, N⟩], true, true⟩,
        [genCRC16 (write_le32 S ++ K % 256 :: funcGetResp :: copyBytes N Y)],
        []⟩ := by
  have h8 : ¬ f.length < HeaderSize + 2 := by
    simp only [HeaderSize]
    omega
  have hov : ¬ HeaderSize + N + 2 > BUFFER_SIZE := by omega
  simp only [List.getD_eq_getElem?_getD] at hslot hfn
  simp [SyncBusServer.inputData, h8, hcrc, hread, hslot, hfn,
    serverServeGetReq, hov]

/-- Behaviour of a one-binding client on a well-formed GetResp frame matching
its binding with the registered size: the payload overwrites the bound buffer
and the change notification fires once. -/
theorem client_getresp_applies (c1 S K N : Nat) (old X f : List Nat)
    (hcrc : checkCRC16 f = true) (hlen : f.length = HeaderSize + N + 2)
    (hread : read_le32 f = S) (hslot : f.getD FrameSlotId 0 = K)
    (hfn : f.getD FrameFunction 0 = funcGetResp)
    (hpayload : (f.drop FrameData).take (f.length - HeaderSize - 2) = X)
    (hX : X.length = N) (hold : old.length = N) :
    SyncBusClient.inputData ⟨c1, [⟨some old, S, K, N⟩], true, true⟩ f
      = ⟨.ok, ⟨c1, [⟨some X, S, K, N⟩], true, true⟩, [], [K]⟩ := by
  have h8 : ¬ f.length < HeaderSize + 2 := by
    simp only [HeaderSize] at hlen ⊢
    omega
  have hdrop : List.drop X.length old = [] := by
    rw [hX, ← hold]
    exact List.drop_length old
  simp only [List.getD_eq_getElem?_getD] at hslot hfn
  simp [SyncBusClient.inputData, h8, hcrc, hread, hslot, hfn, hpayload,
    clientApplyGetResp, overwriteBuf, hX, hdrop]
  omega

theorem builtFrame_payload (v sl fn : Nat) (payload : List Nat) :
    ((genCRC16 (write_le32 v ++ sl :: fn :: payload)).drop FrameData).take
      ((genCRC16 (write_le32 v ++ sl :: fn :: payload)).length - HeaderSize - 2)
      = payload := by
  have hlen := builtFrame_length v sl fn payload
  rw [hlen]
  have hn : HeaderSize + payload.length + 2 - HeaderSize - 2 = payload.length := by
    omega
  rw [hn]
  have hshape : genCRC16 (write_le32 v ++ sl :: fn :: payload)
      = (write_le32 v ++ [sl, fn]) ++ (payload
        ++ [crc16 (write_le32 v ++ sl :: fn :: payload) % 256,
            crc16 (write_le32 v ++ sl :: fn :: payload) / 256 % 256]) := by
    simp [genCRC16]
  rw [hshape, List.drop_left' (by simp [write_le32, FrameData]),
    List.take_left' rfl]

/-- C2: end-to-end GET identity. With a server (identifier `S`) owning slot
`K` of size `N` with content `X`, and a client with a binding for `(S, K)` of
size `N`, the chain getData → server inputData → client inputData succeeds at
every step, leaves the client's bound buffer equal to `X` byte-for-byte, and
fires the change notification exactly once with slot id `K`. -/
theorem C2_end_to_end_get (S K N c1 c2 : Nat) (X old : List Nat)
    (hS : S < 2 ^ 32) (hK : K < 256) (_hN : N < 256)
    (hcap : HeaderSize + N + 2 ≤ BUFFER_SIZE)
    (hX : X.length = N) (hold : old.length = N) :
    ∃ f1 f2,
      SyncBusClient.getData ⟨c1, [⟨some old, S, K, N⟩], true, true⟩ S 0
        = ⟨.ok, ⟨c1, [⟨some old, S, K, N⟩], true, true⟩, [f1], []⟩ ∧
      SyncBusServer.inputData ⟨S, c2, [⟨some X, K, N⟩], true, true⟩ f1
        = ⟨.ok, ⟨S, c2, [⟨some X, K, N⟩], true, true⟩, [f2], []⟩ ∧
      SyncBusClient.inputData ⟨c1, [⟨some old, S, K, N⟩], true, true⟩ f2
        = ⟨.ok, ⟨c1, [⟨some X, S, K, N⟩], true, true⟩, [], [K]⟩ := by
  have hK' : K % 256 = K := Nat.mod_eq_of_lt hK
  refine ⟨genCRC16 (write_le32 S ++ [K, funcGetReq]),
    genCRC16 (write_le32 S ++ K :: funcGetResp :: X), ?_, ?_, ?_⟩
  · have h := getData_sends ⟨c1, [⟨some old, S, K, N⟩], true, true⟩ S 0
      (by simp) (by simp) rfl
    simpa [hK'] using h
  · have hcrc1 : checkCRC16 (genCRC16 (write_le32 S ++ [K, funcGetReq])) = true :=
      checkCRC16_genCRC16 _
    have hlen1 : 8 ≤ (genCRC16 (write_le32 S ++ [K, funcGetReq])).length := by
      simp [genCRC16, write_le32]
    have hread1 : read_le32 (genCRC16 (write_le32 S ++ [K, funcGetReq])) = S := by
      rw [read_le32_genCRC16_write]
      exact Nat.mod_eq_of_lt hS
    have hslot1 :
        (genCRC16 (write_le32 S ++ [K, funcGetReq])).getD FrameSlotId 0 = K := by
      simp [genCRC16, write_le32, FrameSlotId]
    have hfn1 :
        (genCRC16 (write_le32 S ++ [K, funcGetReq])).getD FrameFunction 0
          = funcGetReq := by
      simp [genCRC16, write_le32, FrameFunction]
    have h := server_getreq_responds S c2 K N X _ hcrc1 hlen1 hread1 hslot1
      hfn1 hcap
    rw [copyBytes_self hX, hK'] at h
    exact h
  · have hcrc2 :
        checkCRC16 (genCRC16 (write_le32 S ++ K :: funcGetResp :: X)) = true :=
      checkCRC16_genCRC16 _
    have hlen2 := builtFrame_length S K funcGetResp X
    rw [hX] at hlen2
    have hread2 :
        read_le32 (genCRC16 (write_le32 S ++ K :: funcGetResp :: X)) = S := by
      rw [read_le32_genCRC16_write]
      exact Nat.mod_eq_of_lt hS
    have hslot2 :
        (genCRC16 (write_le32 S ++ K :: funcGetResp :: X)).getD FrameSlotId 0
          = K := by
      simp [genCRC16, write_le32, FrameSlotId]
    have hfn2 := builtFrame_getD_func S K funcGetResp X
    have hpay := builtFrame_payload S K funcGetResp X
    exact client_getresp_applies c1 S K N old X _ hcrc2 hlen2 hread2 hslot2
      hfn2 hpay hX hold

/-- Witness for C2 at the spec's own scenario: server id `0x12345678`, slot 2,
4-byte buffer. -/
theorem C2_witness :
    ∃ f1 f2,
      SyncBusClient.getData ⟨1, [⟨some [0, 0, 0, 0], 0x12345678, 2, 4⟩], true, true⟩
          0x12345678 0
        = ⟨.ok, ⟨1, [⟨some [0, 0, 0, 0], 0x12345678, 2, 4⟩], true, true⟩, [f1], []⟩ ∧
      SyncBusServer.inputData ⟨0x12345678, 1, [⟨some [1, 2, 3, 4], 2, 4⟩], true, true⟩ f1
        = ⟨.ok, ⟨0x12345678, 1, [⟨some [1, 2, 3, 4], 2, 4⟩], true, true⟩, [f2], []⟩ ∧
      SyncBusClient.inputData ⟨1, [⟨some [0, 0, 0, 0], 0x12345678, 2, 4⟩], true, true⟩ f2
        = ⟨.ok, ⟨1, [⟨some [1, 2, 3, 4], 0x12345678, 2, 4⟩], true, true⟩, [], [2]⟩ :=
  C2_end_to_end_get 0x12345678 2 4 1 1 [1, 2, 3, 4] [0, 0, 0, 0] (by decide)
    (by decide) (by decide) (by decide) (by decide) (by decide)

/-- C10: a GET redirected to a server whose identifier matches no registered
binding for that slot id is answered by that server, but the GetResp matches
no client binding and is silently dropped: `ok`, no mutation, no callback. -/
theorem C10_redirected_get_dropped (cst : SyncBusClient) (R K N c2 idx : Nat)
    (Y : List Nat)
    (hR : R < 2 ^ 32) (hK : K < 256) (_hN : N < 256)
    (hcap : HeaderSize + N + 2 ≤ BUFFER_SIZE) (hY : Y.length = N)
    (hidx : idx < cst.serveSlots.length)
    (hslot : (cst.serveSlots.getD idx ⟨none, 0, 0, 0⟩).slotId = K)
    (hdata : (cst.serveSlots.getD idx ⟨none, 0, 0, 0⟩).data ≠ none)
    (hsend : cst.hasSend = true)
    (hnomatch : ∀ s ∈ cst.serveSlots, s.slotId = K → s.serverId ≠ R) :
    ∃ f1 f2,
      cst.getData R idx = ⟨.ok, cst, [f1], []⟩ ∧
      SyncBusServer.inputData ⟨R, c2, [⟨some Y, K, N⟩], true, true⟩ f1
        = ⟨.ok, ⟨R, c2, [⟨some Y, K, N⟩], true, true⟩, [f2], []⟩ ∧
      cst.inputData f2 = ⟨.ok, cst, [], []⟩ := by
  have hK' : K % 256 = K := Nat.mod_eq_of_lt hK
  refine ⟨genCRC16 (write_le32 R ++ [K, funcGetReq]),
    genCRC16 (write_le32 R ++ K :: funcGetResp :: Y), ?_, ?_, ?_⟩
  · have h := getData_sends cst R idx hidx hdata hsend
    rw [hslot, hK'] at h
    exact h
  · have hcrc1 : checkCRC16 (genCRC16 (write_le32 R ++ [K, funcGetReq])) = true :=
      checkCRC16_genCRC16 _
    have hlen1 : 8 ≤ (genCRC16 (write_le32 R ++ [K, funcGetReq])).length := by
      simp [genCRC16, write_le32]
    have hread1 : read_le32 (genCRC16 (write_le32 R ++ [K, funcGetReq])) = R := by
      rw [read_le32_genCRC16_write]
      exact Nat.mod_eq_of_lt hR
    have hslot1 :
        (genCRC16 (write_le32 R ++ [K, funcGetReq])).getD FrameSlotId 0 = K := by
      simp [genCRC16, write_le32, FrameSlotId]
    have hfn1 :
        (genCRC16 (write_le32 R ++ [K, funcGetReq])).getD FrameFunction 0
          = funcGetReq := by
      simp [genCRC16, write_le32, FrameFunction]
    have h := server_getreq_responds R c2 K N Y _ hcrc1 hlen1 hread1 hslot1
      hfn1 hcap
    rw [copyBytes_self hY, hK'] at h
    exact h
  · have hcrc2 :
        checkCRC16 (genCRC16 (write_le32 R ++ K :: funcGetResp :: Y)) = true :=
      checkCRC16_genCRC16 _
    have hlen2 := builtFrame_length R K funcGetResp Y
    have h8 : ¬ (genCRC16 (write_le32 R ++ K :: funcGetResp :: Y)).length
        < HeaderSize + 2 := by omega
    have hread2 :
        read_le32 (genCRC16 (write_le32 R ++ K :: funcGetResp :: Y)) = R := by
      rw [read_le32_genCRC16_write]
      exact Nat.mod_eq_of_lt hR
    have hslot2 :
        (genCRC16 (write_le32 R ++ K :: funcGetResp :: Y)).getD FrameSlotId 0
          = K := by
      simp [genCRC16, write_le32, FrameSlotId]
    have hfn2 := builtFrame_getD_func R K funcGetResp Y
    have hno : ∀ s ∈ cst.serveSlots, ¬ (s.serverId = R ∧ s.slotId = K) :=
      fun s hs hand => hnomatch s hs hand.2 hand.1
    simp only [List.getD_eq_getElem?_getD] at hslot2 hfn2
    simp [SyncBusClient.inputData, h8, hcrc2, hread2, hslot2, hfn2,
      clientApplyGetResp_nomatch hno]

set_option maxRecDepth 16000 in
/-- Witness for C10: the client's only binding for slot 2 points at server 5;
the GET is redirected to server 9, whose GetResp the client then drops. -/
theorem C10_witness :
    ∃ f1 f2,
      SyncBusClient.getData ⟨1, [⟨some [0, 0], 5, 2, 2⟩], true, true⟩ 9 0
        = ⟨.ok, ⟨1, [⟨some [0, 0], 5, 2, 2⟩], true, true⟩, [f1], []⟩ ∧
      SyncBusServer.inputData ⟨9, 1, [⟨some [7, 8], 2, 2⟩], true, true⟩ f1
        = ⟨.ok, ⟨9, 1, [⟨some [7, 8], 2, 2⟩], true, true⟩, [f2], []⟩ ∧
      SyncBusClient.inputData ⟨1, [⟨some [0, 0], 5, 2, 2⟩], true, true⟩ f2
        = ⟨.ok, ⟨1, [⟨some [0, 0], 5, 2, 2⟩], true, true⟩, [], []⟩ :=
  C10_redirected_get_dropped ⟨1, [⟨some [0, 0], 5, 2, 2⟩], true, true⟩ 9 2 2 1 0
    [7, 8] (by decide) (by decide) (by decide) (by decide) (by decide)
    (by decide) (by decide) (by decide) (by decide)
    (by decide)

/-- C3: a valid-checksum SetReq (server) or GetResp (client) whose slot
matches a registered binding (first match of the linear scan) but whose
payload length differs from the registered size makes `inputData` return
`errFault` with the state unchanged, nothing notified and nothing sent. -/
theorem C3_size_mismatch_rejection (cst : SyncBusClient) (sst : SyncBusServer)
    (data : List Nat) (hlen : 8 ≤ data.length) (hcrc : checkCRC16 data = true) :
    (∀ s : serverData_t, data.getD FrameFunction 0 = funcGetResp →
      cst.serveSlots.find?
        (fun t => t.serverId == read_le32 data && t.slotId == data.getD FrameSlotId 0)
        = some s →
      data.length - HeaderSize - 2 ≠ s.size →
      cst.inputData data = ⟨.errFault, cst, [], []⟩) ∧
    (∀ s : clientSlot_t, data.getD FrameFunction 0 = funcSetReq →
      read_le32 data = sst.serverId →
      sst.clientSlots.find? (fun t => t.slotId == data.getD FrameSlotId 0) = some s →
      data.length - HeaderSize - 2 ≠ s.size →
      sst.inputData data = ⟨.errFault, sst, [], []⟩) := by
  have h8 : ¬ data.length < HeaderSize + 2 := by
    simp only [HeaderSize]
    omega
  constructor
  · intro s hfn hfind hsz
    have hszlen :
        ((data.drop FrameData).take (data.length - HeaderSize - 2)).length
          ≠ s.size := by
      rw [List.length_take, List.length_drop]
      simp only [FrameData, HeaderSize] at *
      omega
    simp only [List.getD_eq_getElem?_getD] at hfn hfind
    simp [SyncBusClient.inputData, h8, hcrc, hfn,
      clientApplyGetResp_first_mismatch hfind hszlen]
  · intro s hfn hid hfind hsz
    have hszlen :
        ((data.drop FrameData).take (data.length - HeaderSize - 2)).length
          ≠ s.size := by
      rw [List.length_take, List.length_drop]
      simp only [FrameData, HeaderSize] at *
      omega
    simp only [List.getD_eq_getElem?_getD] at hfn hfind
    simp [SyncBusServer.inputData, h8, hcrc, hfn, hid, funcGetReq, funcSetReq,
      serverApplySetReq_first_mismatch hfind hszlen]

set_option maxRecDepth 8000 in
/-- Witness for C3: a GetResp frame with a 3-byte payload aimed at a client
binding of size 4, and a SetReq frame with a 3-byte payload aimed at a server
slot of size 4. -/
theorem C3_witness :
    (SyncBusClient.mk 1 [⟨some [0, 0, 0, 0], 1, 2, 4⟩] true true).inputData
      (genCRC16 [1, 0, 0, 0, 2, 2, 9, 9, 9])
      = ⟨.errFault, ⟨1, [⟨some [0, 0, 0, 0], 1, 2, 4⟩], true, true⟩, [], []⟩ ∧
    (SyncBusServer.mk 1 1 [⟨some [0, 0, 0, 0], 2, 4⟩] true true).inputData
      (genCRC16 [1, 0, 0, 0, 2, 1, 9, 9, 9])
      = ⟨.errFault, ⟨1, 1, [⟨some [0, 0, 0, 0], 2, 4⟩], true, true⟩, [], []⟩ := by
  constructor
  · exact (C3_size_mismatch_rejection ⟨1, [⟨some [0, 0, 0, 0], 1, 2, 4⟩], true, true⟩
      ⟨1, 1, [⟨some [0, 0, 0, 0], 2, 4⟩], true, true⟩
      (genCRC16 [1, 0, 0, 0, 2, 2, 9, 9, 9]) (by decide) (by decide)).1
      ⟨some [0, 0, 0, 0], 1, 2, 4⟩ (by decide) (by decide) (by decide)
  · exact (C3_size_mismatch_rejection ⟨1, [⟨some [0, 0, 0, 0], 1, 2, 4⟩], true, true⟩
      ⟨1, 1, [⟨some [0, 0, 0, 0], 2, 4⟩], true, true⟩
      (genCRC16 [1, 0, 0, 0, 2, 1, 9, 9, 9]) (by decide) (by decide)).2
      ⟨some [0, 0, 0, 0], 2, 4⟩ (by decide) (by decide) (by decide) (by decide)

/-- C8: well-formed, checksum-valid traffic matching no registered binding is
silently accepted: a client GetResp with no `(serverId, slotId)` match and any
client SetResp return `ok` without effects; a server GetReq or SetReq for its
own identifier with an unknown slot id returns `ok` without effects. -/
theorem C8_silent_noop_on_unmatched (cst : SyncBusClient) (sst : SyncBusServer)
    (data : List Nat) (hlen : 8 ≤ data.length) (hcrc : checkCRC16 data = true) :
    (data.getD FrameFunction 0 = funcGetResp →
      (∀ s ∈ cst.serveSlots,
        ¬ (s.serverId = read_le32 data ∧ s.slotId = data.getD FrameSlotId 0)) →
      cst.inputData data = ⟨.ok, cst, [], []⟩) ∧
    (data.getD FrameFunction 0 = funcSetResp →
      cst.inputData data = ⟨.ok, cst, [], []⟩) ∧
    (data.getD FrameFunction 0 = funcGetReq → read_le32 data = sst.serverId →
      (∀ s ∈ sst.clientSlots, s.slotId ≠ data.getD FrameSlotId 0) →
      sst.inputData data = ⟨.ok, sst, [], []⟩) ∧
    (data.getD FrameFunction 0 = funcSetReq → read_le32 data = sst.serverId →
      (∀ s ∈ sst.clientSlots, s.slotId ≠ data.getD FrameSlotId 0) →
      sst.inputData data = ⟨.ok, sst, [], []⟩) := by
  have h8 : ¬ data.length < HeaderSize + 2 := by
    simp only [HeaderSize]
    omega
  refine ⟨?_, ?_, ?_, ?_⟩
  · intro hfn hno
    simp only [List.getD_eq_getElem?_getD] at hfn hno
    simp [SyncBusClient.inputData, h8, hcrc, hfn, clientApplyGetResp_nomatch hno]
  · intro hfn
    simp only [List.getD_eq_getElem?_getD] at hfn
    simp [SyncBusClient.inputData, h8, hcrc, hfn, funcGetResp, funcSetResp]
  · intro hfn hid hno
    simp only [List.getD_eq_getElem?_getD] at hfn hno
    simp [SyncBusServer.inputData, h8, hcrc, hfn, hid,
      serverServeGetReq_nomatch hno]
  · intro hfn hid hno
    simp only [List.getD_eq_getElem?_getD] at hfn hno
    simp [SyncBusServer.inputData, h8, hcrc, hfn, hid, funcGetReq, funcSetReq,
      serverApplySetReq_nomatch hno]

set_option maxRecDepth 8000 in
/-- Witness for C8: a GetResp for an unregistered binding handed to a client,
and a GetReq for an unknown slot handed to the addressed server. -/
theorem C8_witness :
    (SyncBusClient.mk 1 [⟨some [0, 0], 1, 2, 2⟩] true true).inputData
      (genCRC16 [1, 0, 0, 0, 7, 2, 5, 5])
      = ⟨.ok, ⟨1, [⟨some [0, 0], 1, 2, 2⟩], true, true⟩, [], []⟩ ∧
    (SyncBusServer.mk 1 1 [⟨some [0, 0], 2, 2⟩] true true).inputData
      (genCRC16 [1, 0, 0, 0, 7, 0])
      = ⟨.ok, ⟨1, 1, [⟨some [0, 0], 2, 2⟩], true, true⟩, [], []⟩ := by
  constructor
  · exact (C8_silent_noop_on_unmatched ⟨1, [⟨some [0, 0], 1, 2, 2⟩], true, true⟩
      ⟨1, 1, [⟨some [0, 0], 2, 2⟩], true, true⟩
      (genCRC16 [1, 0, 0, 0, 7, 2, 5, 5]) (by decide) (by decide)).1
      (by decide) (by decide)
  · exact (C8_silent_noop_on_unmatched ⟨1, [⟨some [0, 0], 1, 2, 2⟩], true, true⟩
      ⟨1, 1, [⟨some [0, 0], 2, 2⟩], true, true⟩
      (genCRC16 [1, 0, 0, 0, 7, 0]) (by decide) (by decide)).2.2.1
      (by decide) (by decide) (by decide)

-- ---- Invariant preservation ------------------------------------------------

theorem clientApplyGetResp_length (serverId slotId : Nat) (payload : List Nat)
    (hc : Bool) (slots : List serverData_t) :
    (clientApplyGetResp serverId slotId payload hc slots).2.1.length
      = slots.length := by
  induction slots with
  | nil => rfl
  | cons t rest ih =>
      by_cases hm : t.serverId = serverId ∧ t.slotId = slotId
      · by_cases hsz : payload.length ≠ t.size <;>
          simp [clientApplyGetResp, hm, hsz]
      · simp [clientApplyGetResp, hm, ih]

theorem clientApplyGetResp_preserves {serverId slotId : Nat} {payload : List Nat}
    {hc : Bool} {slots : List serverData_t}
    (h : ∀ s ∈ slots, s.data ≠ none ∧ HeaderSize + s.size + 2 ≤ BUFFER_SIZE) :
    ∀ s' ∈ (clientApplyGetResp serverId slotId payload hc slots).2.1,
      s'.data ≠ none ∧ HeaderSize + s'.size + 2 ≤ BUFFER_SIZE := by
  induction slots with
  | nil => simpa [clientApplyGetResp] using h
  | cons t rest ih =>
      have ht := h t (List.mem_cons_self t rest)
      have hrest := fun s hs => h s (List.mem_cons_of_mem t hs)
      by_cases hm : t.serverId = serverId ∧ t.slotId = slotId
      · by_cases hsz : payload.length ≠ t.size
        · simpa [clientApplyGetResp, hm, hsz] using h
        · intro s' hs'
          simp only [clientApplyGetResp, if_pos hm, if_neg hsz,
            List.mem_cons] at hs'
          rcases hs' with hs' | hs'
          · subst hs'
            exact ⟨by simp, ht.2⟩
          · exact hrest s' hs'
      · intro s' hs'
        simp only [clientApplyGetResp, if_neg hm, List.mem_cons] at hs'
        rcases hs' with hs' | hs'
        · subst hs'
          exact ht
        · exact ih hrest s' hs'

theorem serverApplySetReq_length (myId slotId : Nat) (payload : List Nat)
    (hs hc : Bool) (slots : List clientSlot_t) :
    (serverApplySetReq myId slotId payload hs hc slots).2.1.length
      = slots.length := by
  induction slots with
  | nil => rfl
  | cons t rest ih =>
      by_cases hm : t.slotId = slotId
      · by_cases hsz : payload.length ≠ t.size <;>
          by_cases hsend : hs <;>
            simp [serverApplySetReq, hm, hsz, hsend,
              (by decide : ¬ HeaderSize + 2 > BUFFER_SIZE)]
      · simp [serverApplySetReq, hm, ih]

theorem serverApplySetReq_preserves {myId slotId : Nat} {payload : List Nat}
    {hs hc : Bool} {slots : List clientSlot_t}
    (h : ∀ s ∈ slots, s.data ≠ none ∧ HeaderSize + s.size + 2 ≤ BUFFER_SIZE) :
    ∀ s' ∈ (serverApplySetReq myId slotId payload hs hc slots).2.1,
      s'.data ≠ none ∧ HeaderSize + s'.size + 2 ≤ BUFFER_SIZE := by
  induction slots with
  | nil => simpa [serverApplySetReq] using h
  | cons t rest ih =>
      have ht := h t (List.mem_cons_self t rest)
      have hrest := fun s hsm => h s (List.mem_cons_of_mem t hsm)
      by_cases hm : t.slotId = slotId
      · by_cases hsz : payload.length ≠ t.size
        · simpa [serverApplySetReq, hm, hsz] using h
        · intro s' hs'
          by_cases hsend : hs <;>
            simp only [serverApplySetReq, if_pos hm, if_neg hsz, hsend,
              if_neg (by decide : ¬ HeaderSize + 2 > BUFFER_SIZE),
              List.mem_cons, Bool.false_eq_true, if_true, if_false] at hs' <;>
            rcases hs' with hs' | hs'
          · subst hs'
            exact ⟨by simp, ht.2⟩
          · exact hrest s' hs'
          · subst hs'
            exact ⟨by simp, ht.2⟩
          · exact hrest s' hs'
      · intro s' hs'
        simp only [serverApplySetReq, if_neg hm, List.mem_cons] at hs'
        rcases hs' with hs' | hs'
        · subst hs'
          exact ht
        · exact ih hrest s' hs'

theorem getData_st (st : SyncBusClient) (serverId slot : Nat) :
    (st.getData serverId slot).st = st := by
  by_cases h1 : slot ≥ st.serveSlots.length
  · simp [SyncBusClient.getData, h1]
  · by_cases h2 : (st.serveSlots[slot]?.getD ⟨none, 0, 0, 0⟩).data = none
    · simp [SyncBusClient.getData, h1, h2]
    · by_cases h3 : st.hasSend <;>
        simp [SyncBusClient.getData, h1, h2, h3, HeaderSize, BUFFER_SIZE]

theorem setData_st (st : SyncBusClient) (serverId slot : Nat) :
    (st.setData serverId slot).st = st := by
  by_cases h1 : slot ≥ st.serveSlots.length
  · simp [SyncBusClient.setData, h1]
  · rcases hd : (st.serveSlots[slot]?.getD ⟨none, 0, 0, 0⟩).data with _ | buf
    · simp [SyncBusClient.setData, h1, hd]
    · by_cases h3 : HeaderSize
          + (st.serveSlots[slot]?.getD ⟨none, 0, 0, 0⟩).size + 2 > BUFFER_SIZE
      · simp [SyncBusClient.setData, h1, hd, h3]
      · by_cases h4 : st.hasSend <;>
          simp [SyncBusClient.setData, h1, hd, h3, h4]

theorem clientInv_inputData {st : SyncBusClient} (data : List Nat)
    (h : ClientInv st) : ClientInv (st.inputData data).st := by
  by_cases h1 : data.length < HeaderSize + 2
  · simpa [SyncBusClient.inputData, h1] using h
  · rcases hb : checkCRC16 data with _ | _
    · simpa [SyncBusClient.inputData, h1, hb] using h
    · by_cases h4 : data[FrameFunction]?.getD 0 = funcGetResp
      · have hst : (st.inputData data).st
            = { st with serveSlots := (clientApplyGetResp (read_le32 data)
                (data[FrameSlotId]?.getD 0)
                ((data.drop FrameData).take (data.length - HeaderSize - 2))
                st.hasChanged st.serveSlots).2.1 } := by
          simp [SyncBusClient.inputData, h1, hb, h4]
        rw [hst]
        exact ⟨by rw [clientApplyGetResp_length]; exact h.1,
          fun s' hs' => clientApplyGetResp_preserves h.2 s' hs'⟩
      · by_cases h5 : data[FrameFunction]?.getD 0 = funcSetResp <;>
          simpa [SyncBusClient.inputData, h1, hb, h4, h5] using h

theorem clientInv_addData {st : SyncBusClient} (data : Option (List Nat))
    (serverId slotId size : Nat) (h : ClientInv st) :
    ClientInv (st.addData data serverId slotId size).2 := by
  rcases data with _ | buf
  · simpa [SyncBusClient.addData] using h
  · by_cases h2 : st.serveSlots.length ≥ st.cap
    · simpa [SyncBusClient.addData, h2] using h
    · by_cases h3 : HeaderSize + size % 256 + 2 > BUFFER_SIZE
      · simpa [SyncBusClient.addData, h2, h3] using h
      · refine ⟨?_, ?_⟩
        · simp [SyncBusClient.addData, h2, h3]
          omega
        · intro s' hs'
          simp [SyncBusClient.addData, h2, h3] at hs'
          rcases hs' with hs' | hs'
          · exact h.2 s' hs'
          · subst hs'
            exact ⟨by simp,
              (by omega : HeaderSize + size % 256 + 2 ≤ BUFFER_SIZE)⟩

theorem clientInv_reachable {st : SyncBusClient} (h : ClientReachable st) :
    ClientInv st := by
  induction h with
  | init cap hasSend hasChanged => exact ⟨by simp, by simp⟩
  | getData serverId slot _ ih => rwa [getData_st]
  | setData serverId slot _ ih => rwa [setData_st]
  | inputData data _ ih => exact clientInv_inputData data ih
  | addData data serverId slotId size _ ih =>
      exact clientInv_addData data serverId slotId size ih

theorem serverInv_inputData {st : SyncBusServer} (data : List Nat)
    (h : ServerInv st) : ServerInv (st.inputData data).st := by
  by_cases h1 : data.length < HeaderSize + 2
  · simpa [SyncBusServer.inputData, h1] using h
  · rcases hb : checkCRC16 data with _ | _
    · simpa [SyncBusServer.inputData, h1, hb] using h
    · by_cases h3 : read_le32 data = st.serverId
      · by_cases h4 : data[FrameFunction]?.getD 0 = funcGetReq
        · simpa [SyncBusServer.inputData, h1, hb, h3, h4] using h
        · by_cases h5 : data[FrameFunction]?.getD 0 = funcSetReq
          · have hst : (st.inputData data).st
                = { st with clientSlots := (serverApplySetReq st.serverId
                    (data[FrameSlotId]?.getD 0)
                    ((data.drop FrameData).take (data.length - HeaderSize - 2))
                    st.hasSend st.hasChanged st.clientSlots).2.1 } := by
              simp only [List.getD_eq_getElem?_getD, funcGetReq, funcSetReq]
                at h4 h5
              simp [SyncBusServer.inputData, h1, hb, h3, h4, h5, funcGetReq,
                funcSetReq]
            rw [hst]
            exact ⟨by rw [serverApplySetReq_length]; exact h.1,
              fun s' hs' => serverApplySetReq_preserves h.2 s' hs'⟩
          · simp only [List.getD_eq_getElem?_getD, funcGetReq, funcSetReq]
              at h4 h5
            simpa [SyncBusServer.inputData, h1, hb, h3, h4, h5, funcGetReq,
              funcSetReq] using h
      · simpa [SyncBusServer.inputData, h1, hb, h3] using h

theorem serverInv_addSlot {st : SyncBusServer} (data : Option (List Nat))
    (slotId size : Nat) (h : ServerInv st) :
    ServerInv (st.addSlot data slotId size).2 := by
  rcases data with _ | buf
  · simpa [SyncBusServer.addSlot] using h
  · by_cases h2 : st.clientSlots.length ≥ st.cap
    · simpa [SyncBusServer.addSlot, h2] using h
    · by_cases h3 : HeaderSize + size % 256 + 2 > BUFFER_SIZE
      · simpa [SyncBusServer.addSlot, h2, h3] using h
      · refine ⟨?_, ?_⟩
        · simp [SyncBusServer.addSlot, h2, h3]
          omega
        · intro s' hs'
          simp [SyncBusServer.addSlot, h2, h3] at hs'
          rcases hs' with hs' | hs'
          · exact h.2 s' hs'
          · subst hs'
            exact ⟨by simp,
              (by omega : HeaderSize + size % 256 + 2 ≤ BUFFER_SIZE)⟩

theorem serverInv_reachable {st : SyncBusServer} (h : ServerReachable st) :
    ServerInv st := by
  induction h with
  | init id cap hasSend hasChanged => exact ⟨by simp [SyncBusServer.init], by simp [SyncBusServer.init]⟩
  | setId serverId _ ih => exact ⟨ih.1, ih.2⟩
  | inputData data _ ih => exact serverInv_inputData data ih
  | addSlot data slotId size _ ih => exact serverInv_addSlot data slotId size ih

-- ---- Consequences of the invariant -----------------------------------------

theorem getData_not_fault {st : SyncBusClient} (hinv : ClientInv st)
    (serverId slot : Nat) : (st.getData serverId slot).res ≠ .errFault := by
  by_cases h1 : slot ≥ st.serveSlots.length
  · simp [SyncBusClient.getData, h1]
  · have hmem : st.serveSlots.getD slot ⟨none, 0, 0, 0⟩ ∈ st.serveSlots := by
      have hlt : slot < st.serveSlots.length := by omega
      rw [List.getD_eq_getElem?_getD, List.getElem?_eq_getElem hlt]
      exact List.getElem_mem hlt
    have hdata := (hinv.2 _ hmem).1
    simp only [List.getD_eq_getElem?_getD] at hdata
    by_cases h3 : st.hasSend <;>
      simp [SyncBusClient.getData, h1, hdata, h3, HeaderSize, BUFFER_SIZE]

theorem setData_not_fault {st : SyncBusClient} (hinv : ClientInv st)
    (serverId slot : Nat) : (st.setData serverId slot).res ≠ .errFault := by
  by_cases h1 : slot ≥ st.serveSlots.length
  · simp [SyncBusClient.setData, h1]
  · have hmem : st.serveSlots.getD slot ⟨none, 0, 0, 0⟩ ∈ st.serveSlots := by
      have hlt : slot < st.serveSlots.length := by omega
      rw [List.getD_eq_getElem?_getD, List.getElem?_eq_getElem hlt]
      exact List.getElem_mem hlt
    have hdata := (hinv.2 _ hmem).1
    rcases hd : (st.serveSlots.getD slot ⟨none, 0, 0, 0⟩).data with _ | buf
    · exact absurd hd hdata
    · simp only [List.getD_eq_getElem?_getD] at hd
      by_cases h3 : HeaderSize
          + (st.serveSlots[slot]?.getD ⟨none, 0, 0, 0⟩).size + 2 > BUFFER_SIZE
      · simp [SyncBusClient.setData, h1, hd, h3]
      · by_cases h4 : st.hasSend <;>
          simp [SyncBusClient.setData, h1, hd, h3, h4]

theorem serverServeGetReq_not_overflow {myId slotId : Nat} {hs : Bool}
    {slots : List clientSlot_t}
    (h : ∀ s ∈ slots, HeaderSize + s.size + 2 ≤ BUFFER_SIZE) :
    (serverServeGetReq myId slotId hs slots).1 ≠ .errOverflow := by
  induction slots with
  | nil => simp [serverServeGetReq]
  | cons t rest ih =>
      have ht := h t (List.mem_cons_self t rest)
      have hrest := fun s hsm => h s (List.mem_cons_of_mem t hsm)
      by_cases hm : t.slotId = slotId
      · have hov : ¬ HeaderSize + t.size + 2 > BUFFER_SIZE := by omega
        by_cases hsend : hs <;>
          simp [serverServeGetReq, hm, hsend, if_neg hov]
      · simp only [serverServeGetReq, if_neg hm]
        exact ih hrest

theorem serverApplySetReq_not_overflow {myId slotId : Nat} {payload : List Nat}
    {hs hc : Bool} {slots : List clientSlot_t} :
    (serverApplySetReq myId slotId payload hs hc slots).1 ≠ .errOverflow := by
  induction slots with
  | nil => simp [serverApplySetReq]
  | cons t rest ih =>
      by_cases hm : t.slotId = slotId
      · by_cases hsz : payload.length ≠ t.size <;> by_cases hsend : hs <;>
          simp [serverApplySetReq, hm, hsz, hsend,
            (by decide : ¬ HeaderSize + 2 > BUFFER_SIZE)]
      · simp only [serverApplySetReq, if_neg hm]
        exact ih

theorem serverInputData_not_overflow {st : SyncBusServer} (hinv : ServerInv st)
    (data : List Nat) : (st.inputData data).res ≠ .errOverflow := by
  by_cases h1 : data.length < HeaderSize + 2
  · simp [SyncBusServer.inputData, h1]
  · rcases hb : checkCRC16 data with _ | _
    · simp [SyncBusServer.inputData, h1, hb]
    · by_cases h3 : read_le32 data = st.serverId
      · by_cases h4 : data[FrameFunction]?.getD 0 = funcGetReq
        · have hst : (st.inputData data).res
              = (serverServeGetReq st.serverId (data[FrameSlotId]?.getD 0)
                st.hasSend st.clientSlots).1 := by
            simp [SyncBusServer.inputData, h1, hb, h3, h4]
          rw [hst]
          exact serverServeGetReq_not_overflow fun s hsm => (hinv.2 s hsm).2
        · by_cases h5 : data[FrameFunction]?.getD 0 = funcSetReq
          · have hst : (st.inputData data).res
                = (serverApplySetReq st.serverId (data[FrameSlotId]?.getD 0)
                  ((data.drop FrameData).take (data.length - HeaderSize - 2))
                  st.hasSend st.hasChanged st.clientSlots).1 := by
              simp only [List.getD_eq_getElem?_getD, funcGetReq, funcSetReq]
                at h4 h5
              simp [SyncBusServer.inputData, h1, hb, h3, h4, h5, funcGetReq,
                funcSetReq]
            rw [hst]
            exact serverApplySetReq_not_overflow
          · simp only [List.getD_eq_getElem?_getD, funcGetReq, funcSetReq]
              at h4 h5
            simp [SyncBusServer.inputData, h1, hb, h3, h4, h5, funcGetReq,
              funcSetReq]
      · simp [SyncBusServer.inputData, h1, hb, h3]

/-- C9: after any sequence of operations the registered-entry count never
exceeds the capacity and every entry has a non-null buffer fitting a frame;
consequently `getData`/`setData` never fault on a registered index, and the
server's `inputData` never returns `errOverflow`. -/
theorem C9_slot_table_invariant :
    (∀ st : SyncBusClient, ClientReachable st → ClientInv st ∧
      ∀ serverId slot : Nat, (st.getData serverId slot).res ≠ .errFault ∧
        (st.setData serverId slot).res ≠ .errFault) ∧
    (∀ st : SyncBusServer, ServerReachable st → ServerInv st ∧
      ∀ data : List Nat, (st.inputData data).res ≠ .errOverflow) := by
  constructor
  · intro st h
    have hinv := clientInv_reachable h
    exact ⟨hinv, fun serverId slot =>
      ⟨getData_not_fault hinv serverId slot, setData_not_fault hinv serverId slot⟩⟩
  · intro st h
    have hinv := serverInv_reachable h
    exact ⟨hinv, fun data => serverInputData_not_overflow hinv data⟩

/-- Witness for C9: a client built by registering one 2-byte slot never
faults on `getData`, and the corresponding server never overflows. -/
theorem C9_witness :
    (((SyncBusClient.mk 2 [] true true).addData (some [0, 0]) 7 3 2).2.getData
      7 0).res ≠ .errFault ∧
    ((SyncBusServer.init 7 2 true true).inputData [1, 2, 3]).res
      ≠ .errOverflow := by
  constructor
  · exact ((C9_slot_table_invariant.1 _
      (ClientReachable.addData (some [0, 0]) 7 3 2
        (ClientReachable.init 2 true true))).2 7 0).1
  · exact (C9_slot_table_invariant.2 _
      (ServerReachable.init 7 2 true true)).2 [1, 2, 3]

end SyncBus
